import Mathlib

/-!
Verification of the `ghs` command-line utility (src/main.rs) against its
natural-language specification. The Rust program is embedded shallowly:
each Rust function becomes a Lean definition over explicit data, network
transport is an explicit parameter, and the process entry point becomes a
pure function that also records which effects it performed.
-/

namespace Ghs

/-- Embeds the Rust struct `Repository` (src/main.rs lines 6-11):
`name: String`, `description: Option<String>`, `language: Option<String>`. -/
structure Repository where
  name : String
  description : Option String
  language : Option String
deriving DecidableEq, Repr

/-- Embeds the Rust struct `Repositories` (src/main.rs lines 13-16):
a single field `items: Vec<Repository>`. -/
structure Repositories where
  items : List Repository
deriving DecidableEq, Repr

/-- Models `str::to_lowercase` from the Rust standard library as
character-wise lowering (faithful on ASCII data, which is all the
program compares). -/
def toLowercase (s : String) : String :=
  ⟨s.data.map Char.toLower⟩

/-- Helper for substring search: the pattern is a laid out at the very
start of the text. -/
def matchesAt : List Char → List Char → Bool
  | _, [] => true
  | [], _ :: _ => false
  | c :: cs, p :: ps => c == p && matchesAt cs ps

/-- Helper for substring search: the pattern occurs contiguously at some
position of the text. -/
def containsList (s pat : List Char) : Bool :=
  match s with
  | [] => matchesAt [] pat
  | c :: cs => matchesAt (c :: cs) pat || containsList cs pat

/-- Models `str::contains(&str)` from the Rust standard library:
`pat` occurs contiguously inside `s`. -/
def strContains (s pat : String) : Bool :=
  containsList s.data pat.data

/-- Embeds the first closure of `filter_repositories` (src/main.rs lines
46-50): with no title criterion every item passes; otherwise the
lowercased name must contain the lowercased filter text. -/
def title_pred (title : Option String) (repo : Repository) : Bool :=
  match title with
  | none => true
  | some t => strContains (toLowercase repo.name) (toLowercase t)

/-- Embeds the second closure of `filter_repositories` (src/main.rs lines
51-61): with no description criterion every item passes; with a criterion,
an absent description fails, and a present one must contain the lowercased
filter text. -/
def description_pred (description : Option String) (repo : Repository) : Bool :=
  match description with
  | none => true
  | some d =>
    match repo.description with
    | none => false
    | some rd => strContains (toLowercase rd) (toLowercase d)

/-- Embeds the third closure of `filter_repositories` (src/main.rs lines
62-70): with no language criterion every item passes; with a criterion, an
absent language fails, and a present one must be equal to the filter text
after lowercasing both. -/
def language_pred (language : Option String) (repo : Repository) : Bool :=
  match language with
  | none => true
  | some l =>
    match repo.language with
    | none => false
    | some rl => toLowercase rl == toLowercase l

/-- Embeds `filter_repositories` (src/main.rs lines 37-72): three chained
`filter` passes over `repositories.items`, one per criterion. -/
def filter_repositories (repositories : Repositories)
    (title description language : Option String) : List Repository :=
  ((repositories.items.filter (title_pred title)).filter
      (description_pred description)).filter
    (language_pred language)

/-- Embeds the two error sources of `reqwest::Error` that
`search_github_repositories` can surface (src/main.rs lines 18-35): a
transport failure from `send()`, or a body that does not decode into the
`Repositories` shape from `json()`. -/
inductive RequestError where
  | transport
  | decode
deriving DecidableEq, Repr

/-- Models an HTTP response as the program observes it: the numeric
status code, and the outcome of running the serde decoder for the
`Repositories` shape on the JSON body (`none` when the body is malformed
or does not decode). -/
structure HttpResponse where
  status : Nat
  decodedBody : Option Repositories
deriving DecidableEq, Repr

/-- Predicate from the claim vocabulary: a 2xx (success) HTTP status. -/
def is2xx (status : Nat) : Bool :=
  200 ≤ status && status < 300

/-- Embeds the URL construction of `search_github_repositories`
(src/main.rs line 20): plain string interpolation of the query between
the fixed endpoint and the fixed page-size parameter. -/
def search_url (query : String) : String :=
  "https://api.github.com/search/repositories?q=" ++ query ++ "&per_page=100"

/-- Embeds the query construction of `main` (src/main.rs line 132):
`format!("user:{}", github_username)`. -/
def search_query (username : String) : String :=
  "user:" ++ username

/-- Embeds `search_github_repositories` (src/main.rs lines 18-35) over an
explicit transport outcome: `send()?` propagates a transport failure,
then `request.json().await?` propagates a decode failure, and otherwise
the decoded `Repositories` value is returned. The HTTP status code is
never consulted. -/
def search_github_repositories (sent : Except Unit HttpResponse) :
    Except RequestError Repositories :=
  match sent with
  | .error _ => .error .transport
  | .ok response =>
    match response.decodedBody with
    | none => .error .decode
    | some repositories => .ok repositories

/-- Hexadecimal digit for percent-encoding (uppercase letters). -/
def hexDigit (n : Nat) : Char :=
  if n < 10 then Char.ofNat (48 + n) else Char.ofNat (55 + n)

/-- Unreserved characters of RFC 3986, the characters every
percent-encoder leaves unchanged. -/
def isUnreserved (c : Char) : Bool :=
  c.isAlphanum || c == '-' || c == '_' || c == '.' || c == '~'

/-- Percent-encoding of one character: unreserved characters pass
through, every other ASCII character becomes a `%XX` escape. -/
def percentEncodeChar (c : Char) : List Char :=
  if isUnreserved c then [c]
  else ['%', hexDigit (c.toNat / 16), hexDigit (c.toNat % 16)]

/-- Percent-encoding (URL-encoding) of a string, written from the words
of the specification for comparison against the code. -/
def urlencode (s : String) : String :=
  ⟨s.data.flatMap percentEncodeChar⟩

/-- URL shape stated by the specification, written from its words for
comparison against the code: the search endpoint with the query
URL-encoded and `per_page` fixed at 100. -/
def search_url_spec (username : String) : String :=
  "https://api.github.com/search/repositories?q=" ++
    urlencode (search_query username) ++ "&per_page=100"

/-- Embeds `print_repo` (src/main.rs lines 74-82) as the text it writes:
`unwrap_or_else` substitutes the placeholder strings for absent fields,
and `println!` appends a final newline to the format string. -/
def print_repo (repo : Repository) : String :=
  let description := repo.description.getD "No description"
  let language := repo.language.getD "No language specified"
  "Repository Name: " ++ repo.name ++ "\nDescription: " ++ description ++
    "\nLanguage: " ++ language ++ "\n---\n"

/-- Render shape stated by the specification, written from its words for
comparison against the code: a three-line block (name, description,
language) followed by a separator line, newline-terminated. -/
def render_spec (repo : Repository) : String :=
  String.intercalate "\n"
    ["Repository Name: " ++ repo.name,
     "Description: " ++ repo.description.getD "No description",
     "Language: " ++ repo.language.getD "No language specified",
     "---"] ++ "\n"

/-- Embeds the command-line arguments accepted by `main`
(src/main.rs lines 86-123): `username` is required, the other four flags
are optional. -/
structure Args where
  username : String
  repositories : Option String
  title : Option String
  description : Option String
  language : Option String
deriving DecidableEq, Repr

/-- Fatal outcomes of `main`: the `expect` panic on a missing
`GITHUB_ACCESS_TOKEN` (src/main.rs line 125), or a `RequestError`
propagated by `?` (src/main.rs line 134). -/
inductive MainError where
  | missingToken
  | request (e : RequestError)
deriving DecidableEq, Repr

/-- Observable outcome of one run of `main`: the URL of the network
request when one was issued, and either a fatal error or the rendered
blocks printed to standard output. -/
structure MainResult where
  requestUrl : Option String
  exit : Except MainError (List String)
deriving Repr

/-- Embeds `main` (src/main.rs lines 84-143) over explicit inputs: the
optional token from the environment, the parsed arguments, and the
transport outcome of the one network call. The token is read first and
its absence panics before any request; otherwise the search URL is built
from the username, the search runs, any error is fatal, and the filtered
repositories are rendered in order. -/
def run_main (token : Option String) (args : Args)
    (sent : Except Unit HttpResponse) : MainResult :=
  match token with
  | none => { requestUrl := none, exit := .error .missingToken }
  | some _ =>
    let url := search_url (search_query args.username)
    match search_github_repositories sent with
    | .error e => { requestUrl := some url, exit := .error (.request e) }
    | .ok repositories =>
      { requestUrl := some url,
        exit := .ok ((filter_repositories repositories
          args.title args.description args.language).map print_repo) }

end Ghs

namespace Ghs

/-- CLAIM C3. For every SearchResult, when all three filter criteria
(title, description, language) are absent, the filter operation returns
exactly the input item list unchanged. -/
theorem filter_all_absent_is_identity (repositories : Repositories) :
    filter_repositories repositories none none none = repositories.items := by
  simp [filter_repositories, title_pred, description_pred, language_pred]

/-- CLAIM C4. For every repository item with an absent description, if a
description filter is supplied then the item fails the description
predicate regardless of the filter text, and consequently no item of the
filter output has an absent description. -/
theorem absent_description_excluded :
    (∀ (name : String) (lang : Option String) (d : String),
      description_pred (some d) ⟨name, none, lang⟩ = false) ∧
    (∀ (repositories : Repositories) (t l : Option String) (d : String)
      (repo : Repository),
      repo ∈ filter_repositories repositories t (some d) l →
      repo.description ≠ none) := by
  constructor
  · intro name lang d
    rfl
  · intro repositories t l d repo hmem hnone
    have h1 : repo ∈ (repositories.items.filter (title_pred t)).filter
        (description_pred (some d)) := List.mem_of_mem_filter hmem
    have h2 : description_pred (some d) repo = true := List.of_mem_filter h1
    rw [description_pred, hnone] at h2
    exact Bool.false_ne_true h2

/-- CLAIM C4 witness: the membership hypothesis discharged at a concrete
run of the filter. -/
theorem absent_description_excluded_witness :
    (⟨"alpha", some "a tool", none⟩ : Repository) ∈
      filter_repositories ⟨[⟨"alpha", some "a tool", none⟩]⟩ none (some "tool") none ∧
    (⟨"alpha", some "a tool", none⟩ : Repository).description ≠ none :=
  ⟨by decide,
    absent_description_excluded.2 ⟨[⟨"alpha", some "a tool", none⟩]⟩
      none none "tool" ⟨"alpha", some "a tool", none⟩ (by decide)⟩

/-- CLAIM C5. For every repository item and every supplied language
filter, the item passes the language predicate exactly when its language
is present and whole-string equal to the filter text after lowercasing;
in particular language `Go` matches filter `go` but not `golang`, and an
absent language never passes. -/
theorem language_exact_case_insensitive :
    (∀ (repo : Repository) (l : String),
      language_pred (some l) repo = true ↔
        ∃ rl, repo.language = some rl ∧ toLowercase rl = toLowercase l) ∧
    language_pred (some "go") ⟨"r", none, some "Go"⟩ = true ∧
    language_pred (some "golang") ⟨"r", none, some "Go"⟩ = false ∧
    (∀ (name : String) (d : Option String) (l : String),
      language_pred (some l) ⟨name, d, none⟩ = false) := by
  refine ⟨?_, by decide, by decide, fun name d l => rfl⟩
  intro repo l
  constructor
  · intro h
    cases hrl : repo.language with
    | none =>
      simp only [language_pred, hrl] at h
      exact absurd h Bool.false_ne_true
    | some rl =>
      simp only [language_pred, hrl, beq_iff_eq] at h
      exact ⟨rl, rfl, h⟩
  · rintro ⟨rl, hrl, heq⟩
    simp only [language_pred, hrl, beq_iff_eq]
    exact heq

/-- CLAIM C6. For every SearchResult and every FilterCriteria, the filter
output is a sublist of the input items: surviving items keep their
original relative order and are the original, unmodified items. -/
theorem filter_output_sublist (repositories : Repositories)
    (t d l : Option String) :
    List.Sublist (filter_repositories repositories t d l) repositories.items :=
  ((List.filter_sublist _).trans (List.filter_sublist _)).trans
    (List.filter_sublist _)

/-- CLAIM C1 counterexample. A response with HTTP status 404 whose body
nevertheless decodes into the expected shape makes the remote-search
operation return the decoded result, not a failure: the code never
consults the status, contradicting the claim that a non-2xx status
always yields a failure. -/
theorem non2xx_with_decodable_body_returns_ok :
    is2xx 404 = false ∧
    search_github_repositories (.ok ⟨404, some ⟨[]⟩⟩) = .ok ⟨[]⟩ :=
  ⟨rfl, rfl⟩

/-- CLAIM C1 as amended. The remote-search operation fails with a
RequestError exactly when the transport fails or the body does not decode
into the expected shape; whenever the body decodes, the decoded result is
returned regardless of the HTTP status, which is never consulted. -/
theorem search_failure_iff_transport_or_decode
    (sent : Except Unit HttpResponse) :
    ((∃ e, search_github_repositories sent = .error e) ↔
      sent = .error () ∨ (∃ status, sent = .ok ⟨status, none⟩)) ∧
    (∀ (status : Nat) (repositories : Repositories),
      search_github_repositories (.ok ⟨status, some repositories⟩) =
        .ok repositories) := by
  constructor
  · constructor
    · rintro ⟨e, he⟩
      match sent with
      | .error u => cases u; exact Or.inl rfl
      | .ok ⟨s, none⟩ => exact Or.inr ⟨s, rfl⟩
      | .ok ⟨s, some repositories⟩ => exact Except.noConfusion he
    · rintro (h | ⟨s, h⟩) <;> subst h
      · exact ⟨.transport, rfl⟩
      · exact ⟨.decode, rfl⟩
  · intro s repositories
    rfl

/-- CLAIM C2 counterexample. For the username `a b` the URL the code
builds keeps the space verbatim, while the specified URL percent-encodes
the query, so the two differ. -/
theorem url_not_urlencoded :
    search_url (search_query "a b") ≠ search_url_spec "a b" := by
  decide

/-- CLAIM C2 as amended. For every username, the request URL is the
search endpoint with the query `user:<username>` inserted verbatim (no
URL-encoding is applied by the program) and the parameter `per_page`
fixed at 100; this coincides with the specified URL only when
percent-encoding leaves the query unchanged. -/
theorem url_is_verbatim_interpolation (username : String) :
    search_url (search_query username) =
      "https://api.github.com/search/repositories?q=user:" ++ username ++
        "&per_page=100" :=
  rfl

/-- CLAIM C7. For every repository item, the rendered text is precisely
the three-line block followed by the separator line: the name verbatim,
the description line with the literal placeholder when the description is
absent, and the language line with the literal placeholder when the
language is absent. -/
theorem print_repo_eq_render_spec (repo : Repository) :
    print_repo repo = render_spec repo := by
  apply String.ext
  have hB : ("\nDescription: " : String).data =
      ("\n" : String).data ++ ("Description: " : String).data := rfl
  have hC : ("\nLanguage: " : String).data =
      ("\n" : String).data ++ ("Language: " : String).data := rfl
  have hD : ("\n---\n" : String).data =
      ("\n" : String).data ++ (("---" : String).data ++ ("\n" : String).data) :=
    rfl
  simp only [print_repo, render_spec, String.intercalate, String.intercalate.go,
    String.data_append, hB, hC, hD, List.append_assoc, List.cons_append,
    List.nil_append, List.singleton_append]

/-- CLAIM C8. For every run with the GITHUB_ACCESS_TOKEN environment
variable unset, the process fails with the missing-token error and no
network request is ever issued. -/
theorem missing_token_no_request (args : Args)
    (sent : Except Unit HttpResponse) :
    (run_main none args sent).requestUrl = none ∧
    (run_main none args sent).exit = .error .missingToken :=
  ⟨rfl, rfl⟩

/-- CLAIM C9. For any two invocations whose arguments differ only in the
repositories flag, the whole observable outcome (request URL, filtered
list, rendered output, exit) is identical: the flag is inert. -/
theorem repositories_flag_inert (token : Option String) (username : String)
    (r1 r2 t d l : Option String) (sent : Except Unit HttpResponse) :
    run_main token ⟨username, r1, t, d, l⟩ sent =
      run_main token ⟨username, r2, t, d, l⟩ sent := by
  cases token <;> rfl

/-- CLAIM C10. For every repository name and language, rendering an item
with an absent description is byte-for-byte identical to rendering one
whose description is the literal placeholder text, and likewise for the
language placeholder. -/
theorem placeholder_indistinguishable :
    (∀ (name : String) (lang : Option String),
      print_repo ⟨name, none, lang⟩ =
        print_repo ⟨name, some "No description", lang⟩) ∧
    (∀ (name : String) (desc : Option String),
      print_repo ⟨name, desc, none⟩ =
        print_repo ⟨name, desc, some "No language specified"⟩) :=
  ⟨fun _ _ => rfl, fun _ _ => rfl⟩

end Ghs
